import Mathlib

/-!
Verification of the northeast-wind trip-planner core: the trip-cart store
(`src/stores/trip-cart`, nanostores atoms and actions), the WhatsApp itinerary
formatter (`src/lib/itinerary`), and the haversine great-circle distance used
by the map component.

The JavaScript/TypeScript source is shallowly embedded:

* A `CartPlace` / `LogisticsEntry` mirror the exported interfaces; JS numbers
  that are only compared or summed as whole minutes are `Nat`, other numeric
  fields (`distance_km`, `googleRating`) are `ℚ` (decimal rendering of a
  rational in a formatted string is abstracted by `toString`).
* The three atoms `$cartItems`, `$selectedHub`, `$sidebarOpen` together with
  the two `localStorage` keys become one explicit state record `World`.
  The cart storage slot is modelled by `StoredCart` as it is observed by
  `loadFromStorage`: `absent` (a `null`/falsy read), `corrupt` (a truthy
  string whose `JSON.parse` throws), or `good items` (a truthy string that
  parses back to a cart list; `JSON.stringify` output is always truthy and
  round-trips, so `saveToStorage` writes `good`).
* `localStorage.setItem` may throw (quota); each store action therefore takes
  one `Bool` per write it performs, `true` meaning the write succeeded. The
  source catches the exception and ignores it, so a failed write simply
  leaves the stored slot unchanged; the embedded actions are total.
* The JS `Map` used by `$availableHubs` iterates in key-insertion order and
  `Array.prototype.sort` is a stable sort; a stable sort with respect to the
  total preorder `(a, b) => b[1] - a[1]` has a unique result, so it is
  embedded as `List.insertionSort` (which Mathlib proves stable) with the
  corresponding relation.
-/

/- ------------------------------------------------------------------ -/
/-  Data model (src/stores/trip-cart: LogisticsEntry, CartPlace)       -/
/- ------------------------------------------------------------------ -/

structure LogisticsEntry where
  hub_name : String
  hub_type : String
  distance_km : ℚ
  drive_time_mins : Nat
deriving DecidableEq

structure CartPlace where
  id : String
  name : String
  category : String
  subCategory : String
  state : String
  googleRating : Option ℚ
  image : Option String
  logistics : List LogisticsEntry
deriving DecidableEq

/- ------------------------------------------------------------------ -/
/-  Computed views                                                     -/
/- ------------------------------------------------------------------ -/

/-- `$cartCount`: `items.length`. -/
def cartCount (items : List CartPlace) : Nat := items.length

/-- One step of building `$groupedByState`: `(groups[item.state] ??= []).push(item)`
with JS object string-key insertion-order iteration modelled by an
association list whose keys appear in first-insertion order. -/
def addToGroup : List (String × List CartPlace) → CartPlace → List (String × List CartPlace)
  | [], p => [(p.state, [p])]
  | (s, ps) :: rest, p =>
      if s = p.state then (s, ps ++ [p]) :: rest else (s, ps) :: addToGroup rest p

/-- `$groupedByState`. -/
def groupedByState (items : List CartPlace) : List (String × List CartPlace) :=
  items.foldl addToGroup []

/-- One step of the `$availableHubs` counting loop:
`hubCount.set(l.hub_name, (hubCount.get(l.hub_name) ?? 0) + 1)` on a JS `Map`,
whose entries iterate in key-insertion order. -/
def bump : List (String × Nat) → String → List (String × Nat)
  | [], h => [(h, 1)]
  | (k, n) :: rest, h =>
      if k = h then (k, n + 1) :: rest else (k, n) :: bump rest h

/-- The `hubCount` map of `$availableHubs` after both nested loops. -/
def hubCounts (items : List CartPlace) : List (String × Nat) :=
  items.foldl (fun acc p => p.logistics.foldl (fun acc2 l => bump acc2 l.hub_name) acc) []

/-- The sort order of `$availableHubs`'s comparator `(a, b) => b[1] - a[1]`:
`a` may come before `b` iff `b`'s count is at most `a`'s count. -/
abbrev hubGe (a b : String × Nat) : Prop := b.2 ≤ a.2

instance : IsTotal (String × Nat) hubGe := ⟨fun a b => Nat.le_total b.2 a.2⟩

instance : IsTrans (String × Nat) hubGe := ⟨fun _ _ _ h1 h2 => Nat.le_trans h2 h1⟩

/-- `$availableHubs`: hub names of the count map, stably sorted by descending
count (`Array.prototype.sort` is stable; `List.insertionSort` is the stable
sort for this total preorder). -/
def availableHubs (items : List CartPlace) : List String :=
  ((hubCounts items).insertionSort hubGe).map Prod.fst

/-- `$totalDriveMins`. -/
def totalDriveMins (items : List CartPlace) (hub : String) : Nat :=
  if hub = "" then 0
  else
    items.foldl
      (fun total p =>
        match p.logistics.find? (fun x => x.hub_name == hub) with
        | some l => total + l.drive_time_mins
        | none => total)
      0

/- ------------------------------------------------------------------ -/
/-  Store state and persistence                                        -/
/- ------------------------------------------------------------------ -/

/-- The `ne-trip-cart` storage slot as observed by `loadFromStorage`. -/
inductive StoredCart where
  | absent : StoredCart
  | corrupt : StoredCart
  | good : List CartPlace → StoredCart
deriving DecidableEq

/-- The three atoms plus the two `localStorage` keys (`ne-trip-cart`,
`ne-trip-hub`). -/
structure World where
  cartItems : List CartPlace
  selectedHub : String
  sidebarOpen : Bool
  storedCart : StoredCart
  storedHub : Option String
deriving DecidableEq

/-- The in-memory part of the state (the three atoms). -/
def memProj (w : World) : List CartPlace × String × Bool :=
  (w.cartItems, w.selectedHub, w.sidebarOpen)

/-- `saveToStorage(items)`: `ok` tells whether `localStorage.setItem`
succeeded; the catch block swallows a failure. -/
def saveToStorage (ok : Bool) (items : List CartPlace) (w : World) : World :=
  if ok then { w with storedCart := StoredCart.good items } else w

/-- `saveHubToStorage(hub)`. -/
def saveHubToStorage (ok : Bool) (hub : String) (w : World) : World :=
  if ok then { w with storedHub := some hub } else w

/-- `addToCart(place)`. `okC`/`okH` are the outcomes of the cart write and
the (possible) hub write. -/
def addToCart (okC okH : Bool) (place : CartPlace) (w : World) : World :=
  if w.cartItems.any (fun p => p.id == place.id) then w
  else
    let next := w.cartItems ++ [place]
    let w1 := saveToStorage okC next { w with cartItems := next }
    let w2 :=
      if w1.selectedHub = "" then
        match availableHubs next with
        | [] => w1
        | h :: _ => saveHubToStorage okH h { w1 with selectedHub := h }
      else w1
    { w2 with sidebarOpen := true }

/-- `removeFromCart(id)`. -/
def removeFromCart (ok : Bool) (id : String) (w : World) : World :=
  let next := w.cartItems.filter (fun p => p.id ≠ id)
  saveToStorage ok next { w with cartItems := next }

/-- `clearCart()`. -/
def clearCart (okC okH : Bool) (w : World) : World :=
  saveHubToStorage okH ""
    (saveToStorage okC [] { w with cartItems := [], selectedHub := "" })

/-- `toggleSidebar()`. -/
def toggleSidebar (w : World) : World :=
  { w with sidebarOpen := !w.sidebarOpen }

/-- `selectHub(hub)`. -/
def selectHub (ok : Bool) (hub : String) (w : World) : World :=
  saveHubToStorage ok hub { w with selectedHub := hub }

/-- The second half of `loadFromStorage`:
`const hub = localStorage.getItem(HUB_KEY); if (hub) $selectedHub.set(hub);`
(`if (hub)` is JS truthiness: absent and `""` are both skipped). -/
def applyStoredHub (w : World) : World :=
  match w.storedHub with
  | none => w
  | some h => if h ≠ "" then { w with selectedHub := h } else w

/-- `loadFromStorage()`. A `null` cart read (`absent`) is falsy and skipped; a
throwing `JSON.parse` (`corrupt`) aborts the whole `try` block, so the hub is
not read either; a good value sets the items and then the hub is applied. -/
def loadFromStorage (w : World) : World :=
  match w.storedCart with
  | StoredCart.corrupt => w
  | StoredCart.absent => applyStoredHub w
  | StoredCart.good items => applyStoredHub { w with cartItems := items }

/- ------------------------------------------------------------------ -/
/-  Itinerary formatter (src/lib/itinerary) and hub-utils fmtDrive     -/
/- ------------------------------------------------------------------ -/

/-- `fmtDrive` from `src/lib/hub-utils.ts` (the map component has an
identical copy). -/
def fmtDrive (mins : Nat) : String :=
  if mins < 60 then toString mins ++ " min"
  else
    let h := mins / 60
    let m := mins % 60
    if m > 0 then toString h ++ "h " ++ toString m ++ "m" else toString h ++ "h"

/-- The body of the inner `for (const p of places)` loop of
`formatItineraryForWhatsApp`. JS truthiness of `p.googleRating` treats both
`null` and `0` as falsy. -/
def placeLine (hub : String) (p : CartPlace) : String :=
  let line := "  - " ++ p.name ++ " [" ++ p.category ++ "]"
  let line :=
    match p.googleRating with
    | some r => if r ≠ 0 then line ++ " " ++ toString r else line
    | none => line
  if hub ≠ "" then
    match p.logistics.find? (fun x => x.hub_name == hub) with
    | some l => line ++ " | " ++ fmtDrive l.drive_time_mins ++ " drive"
    | none => line
  else line

/-- `formatItineraryForWhatsApp(groups, hub, totalMins)`; the `Record`
argument is the grouped-by-state view, iterated in insertion order. -/
def formatItineraryForWhatsApp (groups : List (String × List CartPlace))
    (hub : String) (totalMins : Nat) : String :=
  let lines : List String := ["*My Northeast India Trip*", ""]
  let lines :=
    if hub ≠ "" then
      lines ++ ["Starting from: " ++ hub,
        "Total drive time: " ++ fmtDrive totalMins ++ " (approx.)", ""]
    else lines
  let lines := lines ++ groups.flatMap (fun g =>
    ("*" ++ g.1 ++ "* (" ++ toString g.2.length ++ " places)") ::
      (g.2.map (placeLine hub) ++ [""]))
  let lines := lines ++ ["Planned with Northeast Explorer"]
  String.intercalate "\n" lines

/- ------------------------------------------------------------------ -/
/-  Haversine distance (map component helper), over exact reals        -/
/- ------------------------------------------------------------------ -/

/-- `haversine(lat1, lon1, lat2, lon2)` with `R = 6371`, read over exact
real arithmetic (`Math.sin`/`cos`/`asin`/`sqrt` become the `Real`
functions). -/
noncomputable def haversine (lat1 lon1 lat2 lon2 : ℝ) : ℝ :=
  let R : ℝ := 6371
  let dLat := (lat2 - lat1) * Real.pi / 180
  let dLon := (lon2 - lon1) * Real.pi / 180
  let a := Real.sin (dLat / 2) ^ 2 +
    Real.cos (lat1 * Real.pi / 180) * Real.cos (lat2 * Real.pi / 180) *
      Real.sin (dLon / 2) ^ 2
  R * 2 * Real.arcsin (Real.sqrt a)

/- ------------------------------------------------------------------ -/
/-  Helper lemmas about the persistence primitives                     -/
/- ------------------------------------------------------------------ -/

@[simp] theorem saveToStorage_cartItems (ok : Bool) (items : List CartPlace) (w : World) :
    (saveToStorage ok items w).cartItems = w.cartItems := by
  unfold saveToStorage; split <;> rfl

@[simp] theorem saveToStorage_selectedHub (ok : Bool) (items : List CartPlace) (w : World) :
    (saveToStorage ok items w).selectedHub = w.selectedHub := by
  unfold saveToStorage; split <;> rfl

@[simp] theorem saveToStorage_sidebarOpen (ok : Bool) (items : List CartPlace) (w : World) :
    (saveToStorage ok items w).sidebarOpen = w.sidebarOpen := by
  unfold saveToStorage; split <;> rfl

@[simp] theorem saveHubToStorage_cartItems (ok : Bool) (hub : String) (w : World) :
    (saveHubToStorage ok hub w).cartItems = w.cartItems := by
  unfold saveHubToStorage; split <;> rfl

@[simp] theorem saveHubToStorage_selectedHub (ok : Bool) (hub : String) (w : World) :
    (saveHubToStorage ok hub w).selectedHub = w.selectedHub := by
  unfold saveHubToStorage; split <;> rfl

@[simp] theorem saveHubToStorage_sidebarOpen (ok : Bool) (hub : String) (w : World) :
    (saveHubToStorage ok hub w).sidebarOpen = w.sidebarOpen := by
  unfold saveHubToStorage; split <;> rfl

/-- A freshly created store (all atoms at their initial values) over a given
storage content. -/
def initialWorld (sc : StoredCart) (sh : Option String) : World :=
  { cartItems := [], selectedHub := "", sidebarOpen := false,
    storedCart := sc, storedHub := sh }

/- ------------------------------------------------------------------ -/
/-  Claim theorems: persistence round trips and error handling         -/
/- ------------------------------------------------------------------ -/

/-- C4: for every prior store and storage state, `clearCart()` followed by
rehydrating a fresh store from the resulting storage (`loadFromStorage`)
yields an empty entry list and an empty selected-hub string. -/
theorem clearCart_reload_empty (w : World) :
    (loadFromStorage
      (initialWorld (clearCart true true w).storedCart
        (clearCart true true w).storedHub)).cartItems = [] ∧
    (loadFromStorage
      (initialWorld (clearCart true true w).storedCart
        (clearCart true true w).storedHub)).selectedHub = "" :=
  ⟨rfl, rfl⟩

/-- C10: if the stored cart value is corrupt (its `JSON.parse` throws), the
single `catch` in `loadFromStorage` aborts both rehydration steps, so the
stored hub is never applied either: entry list and selected hub keep their
prior values. -/
theorem loadFromStorage_corrupt_frame (w : World)
    (hc : w.storedCart = StoredCart.corrupt) :
    (loadFromStorage w).cartItems = w.cartItems ∧
    (loadFromStorage w).selectedHub = w.selectedHub := by
  unfold loadFromStorage
  rw [hc]
  exact ⟨rfl, rfl⟩

/-- Witness for C10 at a concrete state: corrupt cart storage together with a
stored hub `"Guwahati"`, starting from the initial empty store. -/
theorem loadFromStorage_corrupt_frame_witness :
    (loadFromStorage (initialWorld StoredCart.corrupt (some "Guwahati"))).cartItems = [] ∧
    (loadFromStorage (initialWorld StoredCart.corrupt (some "Guwahati"))).selectedHub = "" :=
  loadFromStorage_corrupt_frame (initialWorld StoredCart.corrupt (some "Guwahati")) rfl

/-- C5: `removeFromCart(id)` only deletes the entries whose id matches: the
result is exactly the filtered entry list (hence remaining entries keep their
relative order, stated via `Sublist`); selected hub and sidebar flag are
untouched; and when no entry has that id the entry list is unchanged. -/
theorem removeFromCart_frame (w : World) (pid : String) (ok : Bool) :
    (removeFromCart ok pid w).cartItems = w.cartItems.filter (fun p => p.id ≠ pid) ∧
    (removeFromCart ok pid w).selectedHub = w.selectedHub ∧
    (removeFromCart ok pid w).sidebarOpen = w.sidebarOpen ∧
    (removeFromCart ok pid w).cartItems.Sublist w.cartItems ∧
    ((∀ p ∈ w.cartItems, p.id ≠ pid) → (removeFromCart ok pid w).cartItems = w.cartItems) := by
  refine ⟨by simp [removeFromCart], by simp [removeFromCart], by simp [removeFromCart],
    ?_, ?_⟩
  · simp only [removeFromCart, saveToStorage_cartItems]
    exact List.filter_sublist w.cartItems
  · intro habs
    simp only [removeFromCart, saveToStorage_cartItems]
    rw [List.filter_eq_self]
    intro p hp
    simpa using habs p hp

/-- A concrete place builder for witnesses and examples. -/
def mkPlace (id st : String) (logs : List LogisticsEntry) : CartPlace :=
  { id := id, name := id, category := "Attraction", subCategory := "",
    state := st, googleRating := none, image := none, logistics := logs }

/-- A concrete populated world used by several witnesses. -/
def exWorld : World :=
  { cartItems := [mkPlace "p1" "Assam" [], mkPlace "p2" "Meghalaya" []],
    selectedHub := "Guwahati", sidebarOpen := true,
    storedCart := StoredCart.absent, storedHub := none }

/-- Witness for C5: removing the absent id `"zz"` from a concrete two-entry
cart leaves entries, hub and sidebar unchanged. -/
theorem removeFromCart_frame_witness :
    (removeFromCart true "zz" exWorld).cartItems = exWorld.cartItems ∧
    (removeFromCart true "zz" exWorld).selectedHub = exWorld.selectedHub ∧
    (removeFromCart true "zz" exWorld).sidebarOpen = exWorld.sidebarOpen :=
  ⟨(removeFromCart_frame exWorld "zz" true).2.2.2.2 (by decide),
    (removeFromCart_frame exWorld "zz" true).2.1,
    (removeFromCart_frame exWorld "zz" true).2.2.1⟩

/-- The three atom projections of `addToCart`, in one helper lemma: the guard
decides everything, the appended entry goes last, the sidebar opens, and the
hub is auto-selected (head of `availableHubs` of the new list) only when it
was empty. -/
theorem addToCart_proj (okC okH : Bool) (p : CartPlace) (w : World) :
    (addToCart okC okH p w).cartItems =
      (if w.cartItems.any (fun q => q.id == p.id) then w.cartItems
        else w.cartItems ++ [p]) ∧
    (addToCart okC okH p w).selectedHub =
      (if w.cartItems.any (fun q => q.id == p.id) then w.selectedHub
        else if w.selectedHub = "" then
          (availableHubs (w.cartItems ++ [p])).headD w.selectedHub
        else w.selectedHub) ∧
    (addToCart okC okH p w).sidebarOpen =
      (if w.cartItems.any (fun q => q.id == p.id) then w.sidebarOpen else true) := by
  unfold addToCart
  split
  · exact ⟨rfl, rfl, rfl⟩
  · refine ⟨?_, ?_, ?_⟩ <;>
      simp only [saveToStorage_selectedHub] <;>
      split <;>
      try cases havail : availableHubs (w.cartItems ++ [p]) <;> simp

/-- C7: for every persisting store mutation, a throwing durable-storage write
is caught and ignored, and the in-memory state (the three atoms) after the
operation is exactly what it is when the write succeeds. -/
theorem persistence_failure_ignored (w : World) (p : CartPlace) (pid hub : String)
    (okC okH okR okS : Bool) :
    memProj (addToCart okC okH p w) = memProj (addToCart true true p w) ∧
    memProj (removeFromCart okR pid w) = memProj (removeFromCart true pid w) ∧
    memProj (clearCart okC okH w) = memProj (clearCart true true w) ∧
    memProj (selectHub okS hub w) = memProj (selectHub true hub w) := by
  refine ⟨?_, ?_, ?_, ?_⟩
  · unfold memProj
    rw [(addToCart_proj okC okH p w).1, (addToCart_proj true true p w).1,
      (addToCart_proj okC okH p w).2.1, (addToCart_proj true true p w).2.1,
      (addToCart_proj okC okH p w).2.2, (addToCart_proj true true p w).2.2]
  · unfold memProj removeFromCart
    simp
  · unfold memProj clearCart
    simp
  · unfold memProj selectHub
    simp

/-- C3: `addToCart(p)` is a no-op (the whole state, storage included, is
unchanged, so the sidebar is not reopened) when an entry with id `p.id` is
already in the cart; otherwise it appends the entry at the end, opens the
sidebar, leaves a nonempty selected hub alone, and — only when no hub was
selected — sets the selected hub to the top-ranked available hub. -/
theorem addToCart_spec (w : World) (p : CartPlace) (okC okH : Bool) :
    ((∃ q ∈ w.cartItems, q.id = p.id) → addToCart okC okH p w = w) ∧
    ((∀ q ∈ w.cartItems, q.id ≠ p.id) →
      (addToCart okC okH p w).cartItems = w.cartItems ++ [p] ∧
      (addToCart okC okH p w).sidebarOpen = true ∧
      (w.selectedHub ≠ "" → (addToCart okC okH p w).selectedHub = w.selectedHub) ∧
      (w.selectedHub = "" → ∀ h t, availableHubs (w.cartItems ++ [p]) = h :: t →
        (addToCart okC okH p w).selectedHub = h)) := by
  constructor
  · intro ⟨q, hq, hid⟩
    unfold addToCart
    rw [if_pos]
    rw [List.any_eq_true]
    exact ⟨q, hq, by simpa using hid⟩
  · intro habs
    have hguard : w.cartItems.any (fun q => q.id == p.id) = false := by
      rw [List.any_eq_false]
      intro q hq
      simpa using habs q hq
    refine ⟨?_, ?_, ?_, ?_⟩
    · rw [(addToCart_proj okC okH p w).1, hguard]
      simp
    · rw [(addToCart_proj okC okH p w).2.2, hguard]
      simp
    · intro hne
      rw [(addToCart_proj okC okH p w).2.1, hguard]
      simp [hne]
    · intro hemp h t hav
      rw [(addToCart_proj okC okH p w).2.1, hguard]
      simp [hemp, hav]

/-- A Guwahati airport logistics entry (40 min drive). -/
def gLog : LogisticsEntry :=
  { hub_name := "Guwahati", hub_type := "airport", distance_km := 20, drive_time_mins := 40 }

/-- A Dibrugarh airport logistics entry (60 min drive). -/
def dLog : LogisticsEntry :=
  { hub_name := "Dibrugarh", hub_type := "airport", distance_km := 30, drive_time_mins := 60 }

/-- A concrete place reachable from Guwahati. -/
def placeG : CartPlace := mkPlace "pg" "Assam" [gLog]

/-- Witness for C3: adding an already-present id to a concrete populated world
changes nothing; adding a place with Guwahati logistics to the initial empty
world appends it, opens the sidebar and auto-selects `"Guwahati"`. -/
theorem addToCart_spec_witness :
    addToCart true true (mkPlace "p1" "Assam" []) exWorld = exWorld ∧
    (addToCart true true placeG (initialWorld StoredCart.absent none)).cartItems = [placeG] ∧
    (addToCart true true placeG (initialWorld StoredCart.absent none)).sidebarOpen = true ∧
    (addToCart true true placeG (initialWorld StoredCart.absent none)).selectedHub = "Guwahati" := by
  have h := (addToCart_spec (initialWorld StoredCart.absent none) placeG true true).2 (by decide)
  exact ⟨(addToCart_spec exWorld (mkPlace "p1" "Assam" []) true true).1 (by decide),
    by simpa using h.1, h.2.1, h.2.2.2 rfl "Guwahati" [] (by decide)⟩

/-- C8: every store operation preserves the invariant that cart entries have
pairwise-distinct ids. -/
theorem ids_nodup_invariant (w : World) (p : CartPlace) (pid hub : String)
    (okC okH okR okS : Bool)
    (hw : (w.cartItems.map (fun q => q.id)).Nodup) :
    ((addToCart okC okH p w).cartItems.map (fun q => q.id)).Nodup ∧
    ((removeFromCart okR pid w).cartItems.map (fun q => q.id)).Nodup ∧
    ((clearCart okC okH w).cartItems.map (fun q => q.id)).Nodup ∧
    ((selectHub okS hub w).cartItems.map (fun q => q.id)).Nodup ∧
    ((toggleSidebar w).cartItems.map (fun q => q.id)).Nodup := by
  refine ⟨?_, ?_, ?_, ?_, ?_⟩
  · rw [(addToCart_proj okC okH p w).1]
    cases hg : w.cartItems.any (fun q => q.id == p.id) with
    | true => simpa using hw
    | false =>
      have hnotin : p.id ∉ w.cartItems.map (fun q => q.id) := by
        rw [List.any_eq_false] at hg
        intro hmem
        obtain ⟨q, hq, hqe⟩ := List.mem_map.mp hmem
        have hne : q.id ≠ p.id := by simpa using hg q hq
        exact hne hqe
      rw [if_neg (by simp), List.map_append]
      refine hw.append (List.nodup_singleton _) ?_
      intro x hx hx'
      simp only [List.map_cons, List.map_nil, List.mem_singleton] at hx'
      exact hnotin (hx' ▸ hx)
  · simp only [removeFromCart, saveToStorage_cartItems]
    exact List.Nodup.sublist ((List.filter_sublist _).map _) hw
  · simp [clearCart]
  · simpa [selectHub] using hw
  · simpa [toggleSidebar] using hw

/-- Witness for C8 at the concrete world `exWorld`, whose two entry ids are
distinct. -/
theorem ids_nodup_invariant_witness :
    ((addToCart true true placeG exWorld).cartItems.map (fun q => q.id)).Nodup ∧
    ((removeFromCart true "p1" exWorld).cartItems.map (fun q => q.id)).Nodup ∧
    ((clearCart true true exWorld).cartItems.map (fun q => q.id)).Nodup ∧
    ((selectHub true "X" exWorld).cartItems.map (fun q => q.id)).Nodup ∧
    ((toggleSidebar exWorld).cartItems.map (fun q => q.id)).Nodup :=
  ids_nodup_invariant exWorld placeG "p1" "X" true true true true (by decide)

/-- C9: over exact real arithmetic, `haversine` is symmetric in its two
coordinate pairs and zero on identical points. -/
theorem haversine_symm_and_self_zero :
    (∀ lat1 lon1 lat2 lon2 : ℝ,
      haversine lat1 lon1 lat2 lon2 = haversine lat2 lon2 lat1 lon1) ∧
    (∀ lat lon : ℝ, haversine lat lon lat lon = 0) := by
  have key : ∀ x y : ℝ,
      Real.sin ((x - y) * Real.pi / 180 / 2) ^ 2 =
        Real.sin ((y - x) * Real.pi / 180 / 2) ^ 2 := by
    intro x y
    have hxy : (x - y) * Real.pi / 180 / 2 = -((y - x) * Real.pi / 180 / 2) := by ring
    rw [hxy, Real.sin_neg, neg_sq]
  constructor
  · intro lat1 lon1 lat2 lon2
    simp only [haversine]
    rw [key lat2 lat1, key lon2 lon1, mul_comm (Real.cos (lat1 * Real.pi / 180))]
  · intro lat lon
    simp [haversine]

/- ------------------------------------------------------------------ -/
/-  Total drive minutes (C6)                                           -/
/- ------------------------------------------------------------------ -/

/-- The claim's own description of the total, written from the spec's words:
the sum, over entries that have a logistics entry whose `hub_name` exactly
equals the selected hub, of that (first such) logistics entry's
`drive_time_mins`; entries lacking a match contribute zero. -/
def specTotalDriveMins (items : List CartPlace) (hub : String) : Nat :=
  (items.filterMap (fun p =>
    (p.logistics.find? (fun x => x.hub_name == hub)).map
      (fun l => l.drive_time_mins))).sum

theorem foldl_drive_total (hub : String) (items : List CartPlace) (acc : Nat) :
    items.foldl
      (fun total p =>
        match p.logistics.find? (fun x => x.hub_name == hub) with
        | some l => total + l.drive_time_mins
        | none => total)
      acc = acc + specTotalDriveMins items hub := by
  induction items generalizing acc with
  | nil => simp [specTotalDriveMins]
  | cons p items ih =>
    simp only [List.foldl_cons]
    cases hfind : p.logistics.find? (fun x => x.hub_name == hub) with
    | none =>
      simp only [ih, specTotalDriveMins, List.filterMap_cons, hfind, Option.map_none']
    | some l =>
      simp only [ih, specTotalDriveMins, List.filterMap_cons, hfind,
        Option.map_some', List.sum_cons]
      rw [Nat.add_assoc]

/-- Counterexample to C6 exactly as stated: an entry whose logistics lists a
hub literally named `""` together with the empty selected hub. The code's
early `if (!hub) return 0` returns 0, while the claimed sum over exactly
matching logistics entries is 40. -/
def blankHubPlace : CartPlace :=
  mkPlace "x" "Assam"
    [{ hub_name := "", hub_type := "train", distance_km := 1, drive_time_mins := 40 }]

theorem totalDriveMins_counterexample :
    totalDriveMins [blankHubPlace] "" ≠ specTotalDriveMins [blankHubPlace] "" := by
  decide

/-- C6 (amended): for every cart and every nonempty selected hub the derived
total equals the sum of the matching logistics drive times (entries lacking a
match contribute zero); for the empty selected hub the total is 0; and the
claim's concrete example — one entry with a 40-minute Guwahati entry and one
entry with no Guwahati entry — totals 40. -/
theorem totalDriveMins_spec (items : List CartPlace) (hub : String) :
    (hub ≠ "" → totalDriveMins items hub = specTotalDriveMins items hub) ∧
    totalDriveMins items "" = 0 ∧
    totalDriveMins [mkPlace "a" "Assam" [gLog], mkPlace "b" "Meghalaya" []] "Guwahati" = 40 := by
  refine ⟨?_, by simp [totalDriveMins], by decide⟩
  intro hne
  unfold totalDriveMins
  rw [if_neg hne]
  simpa using foldl_drive_total hub items 0

/-- Witness for C6 at a concrete cart and the nonempty hub `"Guwahati"`. -/
theorem totalDriveMins_spec_witness :
    totalDriveMins [placeG] "Guwahati" = specTotalDriveMins [placeG] "Guwahati" :=
  (totalDriveMins_spec [placeG] "Guwahati").1 (by decide)

/- ------------------------------------------------------------------ -/
/-  Itinerary formatting for an empty cart (C1)                        -/
/- ------------------------------------------------------------------ -/

/-- Counterexample to C1 exactly as stated: on the empty grouped-by-state
view with no hub selected, the formatter output is not only the title line —
the source always appends a blank line and the footer line
`Planned with Northeast Explorer`. -/
theorem formatItinerary_empty_counterexample :
    formatItineraryForWhatsApp (groupedByState []) "" 0 ≠ "*My Northeast India Trip*" := by
  decide

/-- C1 (amended): for the empty grouped-by-state view with no hub selected
the formatter produces exactly the title line, a blank line and the footer
line — no group sections; when a hub is selected despite the empty cart it
additionally inserts only the hub line, the total-drive-time line and a
following blank line, and (being a total function) it does not throw. -/
theorem formatItinerary_empty_spec (hub : String) (t : Nat) :
    formatItineraryForWhatsApp (groupedByState []) "" t =
      "*My Northeast India Trip*\n\nPlanned with Northeast Explorer" ∧
    (hub ≠ "" →
      formatItineraryForWhatsApp (groupedByState []) hub t =
        String.intercalate "\n"
          ["*My Northeast India Trip*", "",
            "Starting from: " ++ hub,
            "Total drive time: " ++ fmtDrive t ++ " (approx.)", "",
            "Planned with Northeast Explorer"]) := by
  constructor
  · rfl
  · intro hne
    simp only [formatItineraryForWhatsApp, groupedByState, List.foldl_nil,
      List.flatMap_nil, List.append_nil, if_pos hne]
    rfl

/-- Witness for C1 at the concrete hub `"Guwahati"` with 135 total minutes. -/
theorem formatItinerary_empty_spec_witness :
    formatItineraryForWhatsApp (groupedByState []) "Guwahati" 135 =
      String.intercalate "\n"
        ["*My Northeast India Trip*", "",
          "Starting from: " ++ "Guwahati",
          "Total drive time: " ++ fmtDrive 135 ++ " (approx.)", "",
          "Planned with Northeast Explorer"] :=
  (formatItinerary_empty_spec "Guwahati" 135).2 (by decide)

/- ------------------------------------------------------------------ -/
/-  Analysis of the hub ranking (C2)                                   -/
/- ------------------------------------------------------------------ -/

/-- All hub-name occurrences of the cart, in the iteration order of the two
nested loops of `$availableHubs`. -/
def flatHubs (items : List CartPlace) : List String :=
  items.flatMap (fun p => p.logistics.map (fun l => l.hub_name))

/-- The hub names in first-encountered order (each name once, at its first
occurrence). -/
def firstSeen (ns : List String) : List String :=
  ns.foldl (fun acc h => if h ∈ acc then acc else acc ++ [h]) []

/-- The coverage count of a hub: how often the cart's logistics reference
it. -/
def coverage (items : List CartPlace) (h : String) : Nat :=
  (flatHubs items).count h

theorem dedup_foldl_mem (ns : List String) :
    ∀ (acc : List String) (x : String),
      (x ∈ ns.foldl (fun acc h => if h ∈ acc then acc else acc ++ [h]) acc) ↔
        (x ∈ acc ∨ x ∈ ns) := by
  induction ns with
  | nil => intro acc x; simp
  | cons n ns ih =>
    intro acc x
    simp only [List.foldl_cons]
    rw [ih]
    by_cases hn : n ∈ acc
    · rw [if_pos hn]
      simp only [List.mem_cons]
      constructor
      · tauto
      · rintro (h | rfl | h)
        · exact Or.inl h
        · exact Or.inl hn
        · exact Or.inr h
    · rw [if_neg hn]
      simp [List.mem_append, List.mem_cons, or_assoc]

theorem dedup_foldl_nodup (ns : List String) :
    ∀ acc : List String, acc.Nodup →
      (ns.foldl (fun acc h => if h ∈ acc then acc else acc ++ [h]) acc).Nodup := by
  induction ns with
  | nil => intro acc h; simpa
  | cons n ns ih =>
    intro acc hacc
    simp only [List.foldl_cons]
    apply ih
    by_cases hn : n ∈ acc
    · rwa [if_pos hn]
    · rw [if_neg hn]
      refine hacc.append (List.nodup_singleton n) ?_
      intro x hx hx'
      rw [List.mem_singleton] at hx'
      exact hn (hx' ▸ hx)

theorem mem_firstSeen (ns : List String) (x : String) :
    x ∈ firstSeen ns ↔ x ∈ ns := by
  unfold firstSeen
  rw [dedup_foldl_mem]
  simp

theorem nodup_firstSeen (ns : List String) : (firstSeen ns).Nodup :=
  dedup_foldl_nodup ns [] List.nodup_nil

theorem firstSeen_append_single (ns : List String) (n : String) :
    firstSeen (ns ++ [n]) =
      if n ∈ ns then firstSeen ns else firstSeen ns ++ [n] := by
  have h1 : firstSeen (ns ++ [n]) =
      if n ∈ firstSeen ns then firstSeen ns else firstSeen ns ++ [n] := by
    simp only [firstSeen, List.foldl_append, List.foldl_cons, List.foldl_nil]
  rw [h1]
  by_cases hn : n ∈ ns
  · rw [if_pos ((mem_firstSeen ns n).mpr hn), if_pos hn]
  · rw [if_neg (fun hc => hn ((mem_firstSeen ns n).mp hc)), if_neg hn]

theorem count_append_single (ns : List String) (n h : String) :
    (ns ++ [n]).count h = ns.count h + (if h = n then 1 else 0) := by
  by_cases he : h = n
  · subst he
    simp [List.count_append]
  · simp [List.count_append, List.count_singleton, he, Ne.symm he]

theorem bump_map (n : String) (f : String → Nat) :
    ∀ hs : List String, hs.Nodup →
      bump (hs.map (fun h => (h, f h))) n =
        if n ∈ hs then hs.map (fun h => (h, f h + if h = n then 1 else 0))
        else hs.map (fun h => (h, f h)) ++ [(n, 1)] := by
  intro hs
  induction hs with
  | nil => intro _; simp [bump]
  | cons k hs ih =>
    intro hnd
    obtain ⟨hk, hnd'⟩ := List.nodup_cons.mp hnd
    simp only [List.map_cons, bump]
    by_cases hkn : k = n
    · subst hkn
      rw [if_pos rfl, if_pos (List.mem_cons_self k hs)]
      simp only [List.map_cons, if_pos rfl]
      congr 1
      apply List.map_congr_left
      intro h hh
      have hne : h ≠ k := fun he => hk (he ▸ hh)
      simp [hne]
    · rw [if_neg hkn, ih hnd']
      by_cases hn : n ∈ hs
      · rw [if_pos hn, if_pos (List.mem_cons_of_mem k hn)]
        simp [hkn]
      · rw [if_neg hn,
          if_neg (fun hc => (List.mem_cons.mp hc).elim (fun he => hkn he.symm) hn)]
        simp

theorem hubCounts_foldl_general (items : List CartPlace) :
    ∀ acc : List (String × Nat),
      items.foldl (fun acc p => p.logistics.foldl (fun acc2 l => bump acc2 l.hub_name) acc) acc
        = (flatHubs items).foldl bump acc := by
  induction items with
  | nil => intro acc; rfl
  | cons p items ih =>
    intro acc
    simp only [List.foldl_cons, flatHubs, List.flatMap_cons, List.foldl_append]
    rw [ih]
    congr 1
    rw [List.foldl_map]

theorem counts_foldl_desc (ns : List String) :
    ns.foldl bump [] = (firstSeen ns).map (fun h => (h, ns.count h)) := by
  induction ns using List.reverseRecOn with
  | nil => rfl
  | append_singleton ns n ih =>
    rw [List.foldl_append]
    simp only [List.foldl_cons, List.foldl_nil]
    rw [ih, bump_map n _ _ (nodup_firstSeen ns), firstSeen_append_single]
    by_cases hn : n ∈ ns
    · rw [if_pos ((mem_firstSeen ns n).mpr hn), if_pos hn]
      apply List.map_congr_left
      intro h hh
      rw [count_append_single]
    · rw [if_neg (fun hc => hn ((mem_firstSeen ns n).mp hc)), if_neg hn,
        List.map_append]
      congr 1
      · apply List.map_congr_left
        intro h hh
        have hne : h ≠ n := fun he => hn (he ▸ (mem_firstSeen ns h).mp hh)
        rw [count_append_single, if_neg hne, Nat.add_zero]
      · simp [count_append_single, List.count_eq_zero.mpr hn]

/-- The structure of the `$availableHubs` count map: its keys are the hub
names in first-encountered order, each paired with its coverage count. -/
theorem hubCounts_char (items : List CartPlace) :
    hubCounts items =
      (firstSeen (flatHubs items)).map (fun h => (h, coverage items h)) := by
  have h1 : hubCounts items = (flatHubs items).foldl bump [] :=
    hubCounts_foldl_general items []
  rw [h1, counts_foldl_desc]
  rfl

theorem map_fst_hubCounts (items : List CartPlace) :
    (hubCounts items).map Prod.fst = firstSeen (flatHubs items) := by
  rw [hubCounts_char, List.map_map]
  exact List.map_id _

theorem availableHubs_perm (items : List CartPlace) :
    (availableHubs items).Perm (firstSeen (flatHubs items)) := by
  have h1 : (availableHubs items).Perm ((hubCounts items).map Prod.fst) :=
    (List.perm_insertionSort hubGe (hubCounts items)).map Prod.fst
  rw [map_fst_hubCounts] at h1
  exact h1

theorem mem_flatHubs (items : List CartPlace) (x : String) :
    x ∈ flatHubs items ↔ ∃ p ∈ items, ∃ l ∈ p.logistics, l.hub_name = x := by
  simp [flatHubs]

/-- The claim's concrete ranking example: logistics reference Guwahati three
times and Dibrugarh once. -/
def hubExampleItems : List CartPlace :=
  [mkPlace "g1" "Assam" [gLog], mkPlace "g2" "Assam" [gLog],
    mkPlace "g3" "Assam" [gLog], mkPlace "d1" "Assam" [dLog]]

/-- Two entries giving Guwahati and Dibrugarh a coverage tie, with Guwahati
encountered first. -/
def tieItems : List CartPlace :=
  [mkPlace "a" "Assam" [gLog], mkPlace "b" "Assam" [dLog]]

/-- C2: for every cart, `$availableHubs` contains exactly the hub names
appearing in some entry's logistics (each once), is ordered by descending
coverage count, and breaks coverage ties by first-encountered order (stated
as: any first-encounter-ordered pair with equal coverage stays in that
order); and on the claim's concrete example it is
`["Guwahati", "Dibrugarh"]`. -/
theorem availableHubs_spec :
    (∀ items : List CartPlace,
      (∀ h, h ∈ availableHubs items ↔ ∃ p ∈ items, ∃ l ∈ p.logistics, l.hub_name = h) ∧
      (availableHubs items).Nodup ∧
      (availableHubs items).Pairwise (fun g d => coverage items d ≤ coverage items g) ∧
      (∀ g d, [g, d].Sublist (firstSeen (flatHubs items)) →
        coverage items g = coverage items d →
        [g, d].Sublist (availableHubs items))) ∧
    availableHubs hubExampleItems = ["Guwahati", "Dibrugarh"] := by
  constructor
  · intro items
    have hmemAv : ∀ x, x ∈ availableHubs items ↔ x ∈ flatHubs items := by
      intro x
      rw [(availableHubs_perm items).mem_iff, mem_firstSeen]
    refine ⟨?_, ?_, ?_, ?_⟩
    · intro h
      rw [hmemAv, mem_flatHubs]
    · exact ((availableHubs_perm items).nodup_iff).mpr (nodup_firstSeen _)
    · have hsorted : List.Pairwise hubGe ((hubCounts items).insertionSort hubGe) :=
        List.sorted_insertionSort hubGe (hubCounts items)
      have hsnd : ∀ x ∈ (hubCounts items).insertionSort hubGe,
          x.2 = coverage items x.1 := by
        intro x hx
        have hx' : x ∈ hubCounts items := by
          simpa using (List.mem_insertionSort hubGe).mp hx
        rw [hubCounts_char] at hx'
        obtain ⟨h, _, rfl⟩ := List.mem_map.mp hx'
        rfl
      unfold availableHubs
      rw [List.pairwise_map]
      apply List.Pairwise.imp_of_mem _ hsorted
      intro a b ha hb hab
      have h2a := hsnd a ha
      have h2b := hsnd b hb
      rw [← h2a, ← h2b]
      exact hab
    · intro g d hsub hcov
      have hmap : List.Sublist [(g, coverage items g), (d, coverage items d)]
          (hubCounts items) := by
        rw [hubCounts_char]
        exact List.Sublist.map (fun h => (h, coverage items h)) hsub
      have hge : hubGe (g, coverage items g) (d, coverage items d) :=
        le_of_eq hcov.symm
      have hres := List.pair_sublist_insertionSort hge hmap
      have hfst := List.Sublist.map Prod.fst hres
      simpa [availableHubs] using hfst
  · decide

/-- Witness for C2: the tie-break conjunct of `availableHubs_spec` applied
at a concrete cart with a Guwahati/Dibrugarh coverage tie. -/
theorem availableHubs_spec_witness :
    ["Guwahati", "Dibrugarh"].Sublist (availableHubs tieItems) :=
  (availableHubs_spec.1 tieItems).2.2.2 "Guwahati" "Dibrugarh" (by decide) (by decide)
